import Mathlib

/-!
Verification development for the tabular pipeline of `process_csv.py`
(class `CSVProcessor` and its driver `main`).

The script holds one in-memory table (`self.df`, a pandas DataFrame) and
applies a fixed sequence of optional stages to it:
load → select columns → filter rows → remove duplicates → fill missing →
sort → save.  We embed the table as `Dataset` (row-major: a list of column
names and a list of rows, each row a list of optional cells), and each
stage method as a pure function on `Dataset`.

Modelling conventions, stated once:
* A cell is `Option Val`: `none` is pandas' missing value (NaN).  `Val`
  carries the scalars a loaded column can hold: 64-bit integers (`Int`
  with an explicit range check at parse time), floats (abstracted as
  exact rationals `ℚ`; IEEE rounding, infinities and NaN payloads are
  outside the model — no claim here depends on them), booleans and
  strings.
* Ordering of values for `sort_values` goes through `Val.key`, a map into
  the linear order `Lex (ℚ ⊕ String)`: numeric cells (ints, floats, and
  booleans, which Python compares numerically) compare numerically,
  strings compare lexicographically, and missing cells are `⊤` of
  `WithTop _`, so they sort after every non-missing value regardless of
  direction — pandas' `na_position='last'` default.
* `sort_values` uses numpy's quicksort, whose order on tied keys is an
  internal detail of numpy; the model uses a comparison sort with the
  same key order and null placement, and no theorem below relies on the
  model's particular order of tied rows.
* Fallible stages return `Except StageErr Dataset`; `logger.error` +
  `return False` in the source corresponds to `.error`.
-/

namespace ProcessCSV

/-- Scalar value held by a non-missing cell of a loaded DataFrame. -/
inductive Val : Type where
  | vInt (i : Int)
  | vFloat (q : ℚ)
  | vBool (b : Bool)
  | vStr (s : String)
deriving DecidableEq

/-- Sort key of a value: numbers (ints, floats, booleans-as-0/1, exactly
Python's numeric comparison of `bool` with numbers) below strings, each
class ordered internally.  `Lex (ℚ ⊕ String)` is a linear order. -/
def Val.key : Val → Lex (ℚ ⊕ String)
  | .vInt i => toLex (Sum.inl (i : ℚ))
  | .vFloat q => toLex (Sum.inl q)
  | .vBool b => toLex (Sum.inl (if b then 1 else 0))
  | .vStr s => toLex (Sum.inr s)

/-- One row of the table: one optional cell per column. -/
abbrev Row := List (Option Val)

/-- The in-memory table `self.df`: ordered column names, row-major cells. -/
structure Dataset : Type where
  cols : List String
  rows : List Row
deriving DecidableEq

/-- Well-formedness: every row has one cell per column. -/
def Dataset.WF (d : Dataset) : Prop :=
  ∀ r ∈ d.rows, r.length = d.cols.length

instance (d : Dataset) : Decidable d.WF :=
  List.decidableBAll _ d.rows

/-! ### Field parsing, mirroring the pandas CSV reader's converters -/

/-- pandas' default `na_values`: a raw field equal to one of these is read
as missing (NaN). -/
def naValues : List String :=
  ["", "#N/A", "#N/A N/A", "#NA", "-1.#IND", "-1.#QNAN", "-NaN", "-nan",
   "1.#IND", "1.#QNAN", "<NA>", "N/A", "NA", "NULL", "NaN", "None",
   "n/a", "nan", "null"]

/-- Is this raw field a missing-value marker? -/
def isNA (s : String) : Bool := naValues.contains s

/-- Numeric value of a digit string (caller checks the digits). -/
def digitsVal (cs : List Char) : Nat :=
  cs.foldl (fun a c => a * 10 + (c.toNat - 48)) 0

/-- Parse an unsigned run of decimal digits; `none` if empty or non-digit. -/
def parseNatDigits? (cs : List Char) : Option Nat :=
  if cs.isEmpty then none
  else if cs.all Char.isDigit then some (digitsVal cs) else none

/-- Strip one leading sign, returning the multiplier and the rest. -/
def stripSign : List Char → Int × List Char
  | '+' :: rest => (1, rest)
  | '-' :: rest => (-1, rest)
  | cs => (1, cs)

/-- Parse a signed decimal integer that fits in int64, as the pandas
tokenizer's integer conversion does (out-of-range integers fail here and
are retried as floats). -/
def parseInt64? (s : String) : Option Int :=
  let (sg, cs) := stripSign s.toList
  match parseNatDigits? cs with
  | none => none
  | some n =>
    let v : Int := sg * n
    if -(2 ^ 63) ≤ v ∧ v ≤ 2 ^ 63 - 1 then some v else none

/-- Parse a signed decimal integer with no range limit (float exponents). -/
def parseExp? (cs : List Char) : Option Int :=
  let (sg, cs') := stripSign cs
  (parseNatDigits? cs').map (fun n => sg * n)

/-- Parse the mantissa of a float literal: optional sign, digits with at
most one decimal point, at least one digit overall ("1", "1.", ".5"). -/
def parseMantissa? (cs : List Char) : Option ℚ :=
  let (sg, cs') := stripSign cs
  let j := cs'.findIdx (fun c => c == '.')
  if j == cs'.length then (parseNatDigits? cs').map (fun n => (sg : ℚ) * n)
  else
    let ip := cs'.take j
    let fp := cs'.drop (j + 1)
    if ip.isEmpty && fp.isEmpty then none
    else if ip.all Char.isDigit && fp.all Char.isDigit && !fp.any (fun c => c == '.') then
      some ((sg : ℚ) * ((digitsVal ip : ℚ) + (digitsVal fp : ℚ) / (10 : ℚ) ^ fp.length))
    else none

/-- Parse a float literal: mantissa with optional `e`/`E` exponent.  The
numeric value is kept exact in `ℚ` (see the header comment). -/
def parseFloat? (s : String) : Option ℚ :=
  let cs := s.toList
  let i := cs.findIdx (fun c => c == 'e' || c == 'E')
  if i == cs.length then parseMantissa? cs
  else
    match parseMantissa? (cs.take i), parseExp? (cs.drop (i + 1)) with
    | some m, some e => some (m * (10 : ℚ) ^ e)
    | _, _ => none

/-- Parse a boolean literal; the pandas tokenizer accepts exactly these. -/
def parseBool? (s : String) : Option Bool :=
  if s = "True" || s = "TRUE" then some true
  else if s = "False" || s = "FALSE" then some false
  else none

/-- Inferred column dtype.  `date` exists in the spec's taxonomy; the
reader shows below that it is never produced. -/
inductive DType : Type where
  | int
  | float
  | bool
  | date
  | str
deriving DecidableEq

/-- Column dtype inference of `pd.read_csv` (no `parse_dates`, no
explicit `dtype`): the tokenizer converts each raw column by trying
int64 (every field must be an in-range integer — a missing-value marker
is not, so any NA demotes the column past int64), then float64 (NA
fields become NaN, every other field must be a number), then bool
(every field must be a boolean literal; NA cannot be stored in a bool
column), and otherwise leaves the column as `object` (strings).  A
column with no rows is `object`. -/
def inferDtype (col : List String) : DType :=
  if col.isEmpty then .str
  else if col.all (fun s => (parseInt64? s).isSome) then .int
  else if col.all (fun s => isNA s || (parseFloat? s).isSome) then .float
  else if col.all (fun s => !isNA s && (parseBool? s).isSome) then .bool
  else .str

/-- Convert one raw field of a column with inferred dtype `dt` to a cell. -/
def convertCell (dt : DType) (s : String) : Option Val :=
  if isNA s then none
  else
    match dt with
    | .int => (parseInt64? s).map Val.vInt
    | .float => (parseFloat? s).map Val.vFloat
    | .bool => (parseBool? s).map Val.vBool
    | .date => none
    | .str => some (Val.vStr s)

/-- `load_csv` (lines 28-43) on an already-tokenized file: `header` is the
header row (taken verbatim as column names) and `grid` the data rows.
Per-column dtype inference, then cell conversion.  Fields beyond a short
row read as `""` (missing).  I/O failure (`LoadError`) is outside the
model; duplicate-header mangling by pandas is not modelled, so theorems
about loaded column names assume a duplicate-free header. -/
def load_csv (header : List String) (grid : List (List String)) : Dataset :=
  let n := header.length
  let dts := (List.range n).map (fun i => inferDtype (grid.map (fun r => r.getD i "")))
  { cols := header
    rows := grid.map (fun r => (List.range n).map (fun i => convertCell (dts.getD i .str) (r.getD i ""))) }

/-! ### Stage functions -/

/-- Stage failure; both `select_columns` and `sort_data` report missing
column names (`ColumnNotFoundError` in the spec's taxonomy). -/
inductive StageErr : Type where
  | columnNotFound (names : List String)
deriving DecidableEq

instance {ε α : Type} [DecidableEq ε] [DecidableEq α] : DecidableEq (Except ε α) := fun a b =>
  match a, b with
  | .ok x, .ok y => decidable_of_iff (x = y) (by simp)
  | .error x, .error y => decidable_of_iff (x = y) (by simp)
  | .ok _, .error _ => isFalse (by simp)
  | .error _, .ok _ => isFalse (by simp)

/-- Python's `columns.split(',')`: split a character list on a separator,
keeping empty pieces. -/
def splitChars (sep : Char) : List Char → List (List Char)
  | [] => [[]]
  | c :: rest =>
    let r := splitChars sep rest
    if c = sep then [] :: r
    else
      match r with
      | h :: t => (c :: h) :: t
      | [] => [[c]]

/-- Python's `str.strip()` (whitespace variant used here). -/
def trimChars (cs : List Char) : List Char :=
  let ws := fun c => c = ' ' || c = '\t' || c = '\n' || c = '\r'
  ((cs.dropWhile ws).reverse.dropWhile ws).reverse

/-- `[c.strip() for c in columns.split(',')]` (line 67). -/
def parseColList (s : String) : List String :=
  (splitChars ',' s.toList).map (fun cs => String.mk (trimChars cs))

/-- `select_columns` (lines 62-77): parse the request, collect the set of
requested names absent from the current columns (`set(col_list) -
set(self.df.columns)`, modelled as the deduplicated list of missing
names); fail reporting all of them at once, else reindex to exactly the
requested list in order.  The caller (`main`) only invokes this with a
non-empty request string (`if args.columns:`). -/
def select_columns (d : Dataset) (columns : String) : Except StageErr Dataset :=
  let colList := parseColList columns
  let missing := (colList.filter (fun c => !d.cols.contains c)).dedup
  if missing.isEmpty then
    .ok { cols := colList
          rows := d.rows.map (fun r => colList.map (fun c => r.getD (d.cols.findIdx (· == c)) none)) }
  else
    .error (.columnNotFound missing)

/-- `filter_rows` (lines 79-93) given that the query expression evaluated
successfully: `df.query(expr)` keeps the rows on which the expression's
row predicate `p` holds.  (A raising expression — `FilterError` — is the
`return False` path; claims about successful filtering quantify over the
predicate.) -/
def filter_rows (d : Dataset) (p : Row → Bool) : Dataset :=
  { d with rows := d.rows.filter p }

/-- `filtered_rows = initial_rows - len(self.df)` (line 88), the removed
count the stage logs (Python subtraction of non-negative counts). -/
def filteredRowCount (d : Dataset) (p : Row → Bool) : Nat :=
  d.rows.length - (filter_rows d p).rows.length

/-- Keep-first deduplication by key, with the keys already seen. -/
def dedupByAux {α β : Type} [DecidableEq β] (f : α → β) (seen : List β) : List α → List α
  | [] => []
  | a :: as =>
    if f a ∈ seen then dedupByAux f seen as
    else a :: dedupByAux f (f a :: seen) as

/-- The projection `drop_duplicates` compares on: the row restricted to
the subset columns (default: all columns).  Missing cells compare equal
to each other, as pandas' `duplicated` treats NaNs. -/
def dedupKey (d : Dataset) (subset : Option (List String)) (r : Row) : List (Option Val) :=
  (subset.getD d.cols).map (fun c => r.getD (d.cols.findIdx (· == c)) none)

/-- Exceptions `df.drop_duplicates` can raise out of `remove_duplicates`
(the method has no try/except, so they would escape the stage):
`KeyError` carrying the subset names absent from the columns, and
`ValueError` from `DataFrame.duplicated`'s tuple unpacking over an empty
subset list (pandas issue GH#28188). -/
inductive PandasErr : Type where
  | keyError (names : List String)
  | valueError
deriving DecidableEq

/-- `remove_duplicates` (lines 108-115): `df.drop_duplicates(subset)`,
keeping the first occurrence of each key, following the order of checks
in `DataFrame.duplicated`: a frame with no rows returns early unchanged
(so no error is ever raised for it); otherwise an explicit subset is
first checked against the columns — `set(subset) - set(self.columns)`
nonempty raises `KeyError` with that difference — and an explicit empty
subset list then raises `ValueError` (`labels, shape = map(list,
zip(*map(f, vals)))` unpacking an empty generator, GH#28188); the
remaining cases deduplicate keep-first.  `main` always calls the stage
with the default subset (all columns), which cannot fail.  A zero-column
frame with rows cannot come from `read_csv` and is outside the model. -/
def remove_duplicates (d : Dataset) (subset : Option (List String)) : Except PandasErr Dataset :=
  if d.rows.isEmpty then .ok d
  else
    match subset with
    | none => .ok { d with rows := dedupByAux (dedupKey d none) [] d.rows }
    | some l =>
      let missing := (l.filter (fun c => !d.cols.contains c)).dedup
      if missing.isEmpty then
        if l.isEmpty then .error .valueError
        else .ok { d with rows := dedupByAux (dedupKey d (some l)) [] d.rows }
      else .error (.keyError missing)

/-- Number of missing cells, `self.df.isnull().sum().sum()` (line 119). -/
def nullCount (d : Dataset) : Nat :=
  (d.rows.map (fun r => (r.filter (fun c => c.isNone)).length)).sum

/-- `fill_missing` (lines 117-135).  Returns the new table and the
method's Python return value, which is `True` on every path: with no
missing cells the stage logs and is a no-op; `'drop'` is `df.dropna()`
(remove every row with at least one missing cell); `'fill'` is
`df.fillna(value or 0)` (store the literal in every missing cell); any
other method falls through both branches unchanged. -/
def fill_missing (d : Dataset) (method : String) (value : Option Val) : Dataset × Bool :=
  if nullCount d = 0 then (d, true)
  else if method = "drop" then
    ({ d with rows := d.rows.filter (fun r => r.all (fun c => c.isSome)) }, true)
  else if method = "fill" then
    let fv := value.getD (Val.vInt 0)
    ({ d with rows := d.rows.map (fun r => r.map (fun c => some (c.getD fv))) }, true)
  else (d, true)

/-- Cell sort key for ascending order: missing cells are `⊤`, so they come
after every value (`na_position='last'`). -/
def cellKeyAsc (c : Option Val) : WithTop (Lex (ℚ ⊕ String)) :=
  match c with
  | none => ⊤
  | some v => (v.key : WithTop (Lex (ℚ ⊕ String)))

/-- Cell sort key for descending order: values flipped via the order dual,
missing cells still `⊤` — nulls sort last in both directions. -/
def cellKeyDesc (c : Option Val) : WithTop (Lex (ℚ ⊕ String))ᵒᵈ :=
  match c with
  | none => ⊤
  | some v => ((OrderDual.toDual v.key : (Lex (ℚ ⊕ String))ᵒᵈ) : WithTop (Lex (ℚ ⊕ String))ᵒᵈ)

/-- Row comparison used by the sort: compare the cells of column `i`. -/
def rowLe (i : Nat) (asc : Bool) (r s : Row) : Prop :=
  match asc with
  | true => cellKeyAsc (r.getD i none) ≤ cellKeyAsc (s.getD i none)
  | false => cellKeyDesc (r.getD i none) ≤ cellKeyDesc (s.getD i none)

instance (i : Nat) (asc : Bool) : DecidableRel (rowLe i asc) := fun r s =>
  match asc with
  | true => inferInstanceAs (Decidable (cellKeyAsc (r.getD i none) ≤ cellKeyAsc (s.getD i none)))
  | false => inferInstanceAs (Decidable (cellKeyDesc (r.getD i none) ≤ cellKeyDesc (s.getD i none)))

/-- `sort_data` (lines 95-106): fail when the column is absent
(`ColumnNotFoundError`; the table is untouched), else reorder the rows by
that column's value, missing values last (`df.sort_values`).  The model
sorts with a comparison sort over `rowLe`; the source's numpy quicksort
agrees with it on the key order and null placement, and nothing below
depends on the order of tied rows (see the header comment). -/
def sort_data (d : Dataset) (sortColumn : String) (ascending : Bool) : Except StageErr Dataset :=
  if d.cols.contains sortColumn then
    .ok { d with rows := d.rows.insertionSort (rowLe (d.cols.findIdx (· == sortColumn)) ascending) }
  else
    .error (.columnNotFound [sortColumn])

/-- `save_file` (lines 137-164) at the level the driver claims need: the
supported-format check; a supported format writes the current table (the
written file's contents are the serialized `Dataset`), an unsupported one
is the `return False` path.  I/O failure (`WriteError`) is outside the
model. -/
def save_file (d : Dataset) (fileFormat : String) : Option Dataset :=
  if fileFormat = "csv" || fileFormat = "txt" || fileFormat = "xlsx" ||
      fileFormat = "excel" || fileFormat = "json" then some d
  else none

/-! ### The driver (`main`, lines 253-278) -/

/-- Command-line surface reaching the stages after a successful load.
A Python-falsy value (absent flag or empty string) is `none`.  The filter
expression is carried as its row predicate (see `filter_rows`).
`fillValue` is `args.fill_value`, a raw string from argparse.  `outFmt`
is the save format derived from the output path's extension. -/
structure Args : Type where
  columns : Option String
  filt : Option (Row → Bool)
  removeDup : Bool
  fillMiss : Option String
  fillValue : Option String
  sortBy : Option String
  descending : Bool
  outFmt : String

/-- Outcome of a run: the process exit code, and the saved table if a
file was written (`none`: no output file). -/
structure RunResult : Type where
  exitCode : Nat
  written : Option Dataset
deriving DecidableEq

/-- `main` after a successful load, exactly in source order: column
selection and row filtering exit with status 1 on failure; duplicate
removal and missing-value handling cannot fail; **the sort stage's return
value is discarded** (line 269 calls `processor.sort_data(...)` without
checking it, unlike lines 254-260), so a failed sort leaves the table
as-is and the driver continues; save failure exits 1, success prints the
summary and returns 0. -/
def main (args : Args) (d0 : Dataset) : RunResult :=
  let step1 : Except StageErr Dataset :=
    match args.columns with
    | none => .ok d0
    | some c => select_columns d0 c
  match step1 with
  | .error _ => { exitCode := 1, written := none }
  | .ok d1 =>
    let d2 := match args.filt with
      | none => d1
      | some p => filter_rows d1 p
    -- the default-subset call cannot fail (see `remove_duplicates_spec`),
    -- matching the bare `processor.remove_duplicates()` at line 263
    let d3 := if args.removeDup then
        match remove_duplicates d2 none with
        | .ok dd => dd
        | .error _ => d2
      else d2
    let d4 := match args.fillMiss with
      | none => d3
      | some m => (fill_missing d3 m (args.fillValue.map Val.vStr)).1
    let d5 := match args.sortBy with
      | none => d4
      | some c =>
        match sort_data d4 c (!args.descending) with
        | .ok ds => ds
        | .error _ => d4
    match save_file d5 args.outFmt with
    | some w => { exitCode := 0, written := some w }
    | none => { exitCode := 1, written := none }

/-! ### Type inference -/

theorem isNA_parse_fails (s : String) (h : isNA s = true) :
    parseInt64? s = none ∧ parseBool? s = none := by
  have hm : s ∈ naValues := by simpa [isNA] using h
  fin_cases hm <;> exact ⟨by decide, by decide⟩

/-- The claim's reading of `drop_duplicates`, written as the spec words
it: keep the first occurrence of each key and remove every later row
whose key equals it. -/
def firstOccurrences {α β : Type} [DecidableEq β] (f : α → β) : List α → List α
  | [] => []
  | a :: as => a :: firstOccurrences f (as.filter (fun b => f b != f a))
termination_by l => l.length
decreasing_by
  simp only [List.length_cons]
  exact Nat.lt_succ_of_le (List.length_filter_le _ _)

theorem dedupByAux_eq {α β : Type} [DecidableEq β] (f : α → β) (l : List α) : ∀ seen : List β,
    dedupByAux f seen l = firstOccurrences f (l.filter (fun a => !seen.contains (f a))) := by
  induction l with
  | nil => intro seen; simp [dedupByAux, firstOccurrences]
  | cons a as ih =>
    intro seen
    by_cases h : f a ∈ seen
    · have hc : seen.contains (f a) = true := by simpa using h
      simp only [dedupByAux, if_pos h, List.filter_cons, hc, Bool.not_true]
      rw [if_neg (by simp)]
      exact ih seen
    · have hc : seen.contains (f a) = false := by simpa using h
      simp only [dedupByAux, if_neg h, List.filter_cons, hc, Bool.not_false]
      rw [if_pos trivial]
      rw [firstOccurrences, ih (f a :: seen)]
      congr 1
      rw [List.filter_filter]
      apply congrArg
      apply List.filter_congr
      intro b _
      by_cases hb : f b = f a <;> by_cases hbs : f b ∈ seen <;>
        simp [List.contains_cons, hb, hbs, bne]

theorem firstOccurrences_sublist_aux {α β : Type} [DecidableEq β] (f : α → β) :
    ∀ (n : Nat) (l : List α), l.length ≤ n → (firstOccurrences f l).Sublist l := by
  intro n
  induction n with
  | zero =>
    intro l hl
    have : l = [] := List.eq_nil_of_length_eq_zero (Nat.le_zero.mp hl)
    subst this
    simp [firstOccurrences]
  | succ n ih =>
    intro l hl
    match l with
    | [] => simp [firstOccurrences]
    | a :: as =>
      rw [firstOccurrences]
      apply List.Sublist.cons₂
      have h1 : (as.filter (fun b => f b != f a)).length ≤ n :=
        le_trans (List.length_filter_le _ _) (Nat.le_of_succ_le_succ hl)
      exact (ih _ h1).trans (@List.filter_sublist α (fun b => f b != f a) as)

theorem firstOccurrences_sublist {α β : Type} [DecidableEq β] (f : α → β) (l : List α) :
    (firstOccurrences f l).Sublist l :=
  firstOccurrences_sublist_aux f l.length l Nat.le.refl

theorem dedupByAux_nil {α β : Type} [DecidableEq β] (f : α → β) (l : List α) :
    dedupByAux f [] l = firstOccurrences f l := by
  rw [dedupByAux_eq]
  congr 1
  apply List.filter_eq_self.mpr
  intro a _
  rfl

theorem remove_duplicates_ok_shape (d : Dataset) (subset : Option (List String)) (d' : Dataset)
    (h : remove_duplicates d subset = .ok d') :
    d'.rows.Sublist d.rows ∧ d'.cols = d.cols := by
  unfold remove_duplicates at h
  split at h
  · injection h with h1
    subst h1
    exact ⟨List.Sublist.refl _, rfl⟩
  · split at h
    · injection h with h1
      subst h1
      refine ⟨?_, rfl⟩
      rw [show ({ d with rows := dedupByAux (dedupKey d none) [] d.rows } : Dataset).rows =
        dedupByAux (dedupKey d none) [] d.rows from rfl, dedupByAux_nil]
      exact firstOccurrences_sublist _ _
    · dsimp only at h
      split at h
      · split at h
        · exact Except.noConfusion h
        · injection h with h1
          subst h1
          refine ⟨?_, rfl⟩
          rw [show ∀ rs, ({ d with rows := rs } : Dataset).rows = rs from fun _ => rfl,
            dedupByAux_nil]
          exact firstOccurrences_sublist _ _
      · exact Except.noConfusion h

/-- C7 (amended): deduplication with the default subset (all columns)
always succeeds and keeps the first occurrence of each key — the row's
projection onto the subset columns — removing every later row with an
equal projection; a nonempty subset of existing column names behaves the
same; every successful run preserves the order of surviving rows (a
sublist of the input) and the column list; but with an explicit subset
the stage can fail on a non-empty table: the empty subset list raises
`ValueError`, and a subset naming absent columns raises `KeyError`
listing every missing name. -/
theorem remove_duplicates_spec (d : Dataset) :
    remove_duplicates d none =
      .ok { d with rows := firstOccurrences (dedupKey d none) d.rows } ∧
    (∀ l : List String, l ≠ [] → (∀ c ∈ l, d.cols.contains c = true) →
      remove_duplicates d (some l) =
        .ok { d with rows := firstOccurrences (dedupKey d (some l)) d.rows }) ∧
    (∀ (subset : Option (List String)) (d' : Dataset), remove_duplicates d subset = .ok d' →
      d'.rows.Sublist d.rows ∧ d'.cols = d.cols) ∧
    (d.rows ≠ [] → remove_duplicates d (some []) = .error .valueError) ∧
    (∀ l : List String, d.rows ≠ [] →
      (l.filter (fun c => !d.cols.contains c)).dedup ≠ [] →
      remove_duplicates d (some l) =
        .error (.keyError ((l.filter (fun c => !d.cols.contains c)).dedup))) := by
  have hempty : d.rows.isEmpty = true → ∀ k : Row → List (Option Val),
      (Except.ok d : Except PandasErr Dataset) =
        .ok { d with rows := firstOccurrences k d.rows } := by
    intro hre k
    have hr : d.rows = [] := List.isEmpty_iff.mp hre
    cases d with
    | mk cols rows =>
      dsimp only at hr
      subst hr
      simp [firstOccurrences]
  refine ⟨?_, ?_, remove_duplicates_ok_shape d, ?_, ?_⟩
  · unfold remove_duplicates
    by_cases hre : d.rows.isEmpty = true
    · rw [if_pos hre]
      exact hempty hre _
    · rw [if_neg hre]
      dsimp only
      rw [dedupByAux_nil]
  · intro l hne hall
    unfold remove_duplicates
    by_cases hre : d.rows.isEmpty = true
    · rw [if_pos hre]
      exact hempty hre _
    · rw [if_neg hre]
      dsimp only
      have hmiss : (l.filter (fun c => !d.cols.contains c)).dedup.isEmpty = true := by
        have hf : l.filter (fun c => !d.cols.contains c) = [] := by
          rw [List.filter_eq_nil_iff]
          intro c hc
          rw [hall c hc]
          decide
        rw [hf]
        rfl
      rw [if_pos hmiss, if_neg (fun hq => hne (List.isEmpty_iff.mp hq)), dedupByAux_nil]
  · intro hne
    unfold remove_duplicates
    rw [if_neg (fun hq => hne (List.isEmpty_iff.mp hq))]
    dsimp only
    rw [if_pos (show (List.filter (fun c => !d.cols.contains c) []).dedup.isEmpty = true from rfl)]
    rw [if_pos (show ([] : List String).isEmpty = true from rfl)]
  · intro l hne hmiss
    unfold remove_duplicates
    rw [if_neg (fun hq => hne (List.isEmpty_iff.mp hq))]
    dsimp only
    rw [if_neg (fun hq => hmiss (List.isEmpty_iff.mp hq))]

/-- Witness for C7's amended contract on a concrete three-row table:
a valid subset deduplicates keep-first, the empty subset raises
`ValueError`, and an absent name raises `KeyError` naming it. -/
theorem remove_duplicates_spec_witness :
    remove_duplicates (load_csv ["a", "b"] [["1", "x"], ["1", "x"], ["2", "x"]]) (some ["a", "b"]) =
      .ok { load_csv ["a", "b"] [["1", "x"], ["1", "x"], ["2", "x"]] with
            rows := firstOccurrences
              (dedupKey (load_csv ["a", "b"] [["1", "x"], ["1", "x"], ["2", "x"]]) (some ["a", "b"]))
              (load_csv ["a", "b"] [["1", "x"], ["1", "x"], ["2", "x"]]).rows } ∧
    remove_duplicates (load_csv ["a", "b"] [["1", "x"], ["1", "x"], ["2", "x"]]) (some []) =
      .error .valueError ∧
    remove_duplicates (load_csv ["a", "b"] [["1", "x"], ["1", "x"], ["2", "x"]]) (some ["zz"]) =
      .error (.keyError ["zz"]) := by
  refine ⟨(remove_duplicates_spec _).2.1 ["a", "b"] (by decide) (by decide), ?_, ?_⟩
  · exact (remove_duplicates_spec _).2.2.2.1 (by decide)
  · exact (remove_duplicates_spec _).2.2.2.2 ["zz"] (by decide) (by decide)

/-- Counterexample for C7 as stated: the claim calls an empty subset
valid and the stage never-failing, but on a non-empty table
`drop_duplicates(subset=[])` raises `ValueError` (GH#28188) — the stage
fails. -/
theorem remove_duplicates_empty_subset_fails :
    remove_duplicates (load_csv ["a"] [["x"], ["y"]]) (some []) = .error .valueError := by
  decide

/-! ### Sorting -/

instance rowLeTotal (i : Nat) (asc : Bool) : IsTotal Row (rowLe i asc) :=
  ⟨fun r s => by
    cases asc
    · exact le_total (cellKeyDesc (r.getD i none)) (cellKeyDesc (s.getD i none))
    · exact le_total (cellKeyAsc (r.getD i none)) (cellKeyAsc (s.getD i none))⟩

instance rowLeTrans (i : Nat) (asc : Bool) : IsTrans Row (rowLe i asc) :=
  ⟨fun r s t hrs hst => by
    cases asc
    · exact le_trans (α := WithTop (Lex (ℚ ⊕ String))ᵒᵈ) hrs hst
    · exact le_trans (α := WithTop (Lex (ℚ ⊕ String))) hrs hst⟩

theorem sort_data_ok (d : Dataset) (col : String) (asc : Bool) (d' : Dataset)
    (h : sort_data d col asc = .ok d') :
    d'.cols = d.cols ∧
    d'.rows = d.rows.insertionSort (rowLe (d.cols.findIdx (· == col)) asc) := by
  unfold sort_data at h
  by_cases hc : d.cols.contains col = true
  · rw [if_pos hc] at h
    injection h with h1
    subst h1
    exact ⟨rfl, rfl⟩
  · rw [if_neg hc] at h
    exact Except.noConfusion h

theorem cellKeyAsc_eq_top (c : Option Val) (h : cellKeyAsc c = ⊤) : c = none := by
  cases c with
  | none => rfl
  | some v => exact absurd h (WithTop.coe_ne_top)

theorem cellKeyDesc_eq_top (c : Option Val) (h : cellKeyDesc c = ⊤) : c = none := by
  cases c with
  | none => rfl
  | some v => exact absurd h (WithTop.coe_ne_top)

/-- C5: when `sort_data` succeeds ascending, along the sorted rows every
adjacent pair of non-missing sort-column values is ordered `x ≤ y` in the
value order; in both directions a missing sort-column value is never
followed by a non-missing one (nulls sort after all non-null values,
regardless of the direction flag); and on numeric values — ints and
floats — the value order used is exactly numeric comparison. -/
theorem sort_data_spec (d : Dataset) (col : String) (asc : Bool) (d' : Dataset)
    (h : sort_data d col asc = .ok d') :
    (asc = true →
      List.Chain'
        (fun a b => ∀ x y : Val, a = some x → b = some y → x.key ≤ y.key)
        (d'.rows.map (fun r => r.getD (d.cols.findIdx (· == col)) none))) ∧
    (∀ p q : Nat, p < q → q < d'.rows.length →
      (d'.rows.getD p []).getD (d.cols.findIdx (· == col)) none = none →
      (d'.rows.getD q []).getD (d.cols.findIdx (· == col)) none = none) ∧
    (∀ a b : Int, (Val.vInt a).key ≤ (Val.vInt b).key ↔ a ≤ b) ∧
    (∀ p q : ℚ, (Val.vFloat p).key ≤ (Val.vFloat q).key ↔ p ≤ q) := by
  obtain ⟨-, hrows⟩ := sort_data_ok d col asc d' h
  have hs : List.Pairwise (rowLe (d.cols.findIdx (· == col)) asc) d'.rows := by
    rw [hrows]
    exact List.sorted_insertionSort _ _
  refine ⟨?_, ?_, ?_, ?_⟩
  · intro hasc
    subst hasc
    rw [List.chain'_map]
    refine List.Chain'.imp ?_ (List.Pairwise.chain' hs)
    intro a b hab x y hx hy
    have hab' : cellKeyAsc (a.getD (d.cols.findIdx (· == col)) none) ≤
        cellKeyAsc (b.getD (d.cols.findIdx (· == col)) none) := hab
    rw [hx, hy] at hab'
    exact WithTop.coe_le_coe.mp hab'
  · intro p q hpq hq hp
    have hplen : p < d'.rows.length := lt_trans hpq hq
    have hpair := List.pairwise_iff_getElem.mp hs p q hplen hq hpq
    rw [List.getD_eq_getElem d'.rows [] hplen, List.getD_eq_getElem d'.rows [] hq] at *
    cases asc with
    | true =>
      have h1 : cellKeyAsc ((d'.rows[p]).getD (d.cols.findIdx (· == col)) none) ≤
          cellKeyAsc ((d'.rows[q]).getD (d.cols.findIdx (· == col)) none) := hpair
      rw [hp] at h1
      exact cellKeyAsc_eq_top _ (top_le_iff.mp h1)
    | false =>
      have h1 : cellKeyDesc ((d'.rows[p]).getD (d.cols.findIdx (· == col)) none) ≤
          cellKeyDesc ((d'.rows[q]).getD (d.cols.findIdx (· == col)) none) := hpair
      rw [hp] at h1
      exact cellKeyDesc_eq_top _ (top_le_iff.mp h1)
  · intro a b
    show toLex (Sum.inl (a : ℚ)) ≤ toLex (Sum.inl (b : ℚ)) ↔ a ≤ b
    rw [Sum.Lex.inl_le_inl_iff, Int.cast_le]
  · intro p q
    show toLex (Sum.inl p) ≤ toLex (Sum.inl q) ↔ p ≤ q
    rw [Sum.Lex.inl_le_inl_iff]

/-- Witness for C5 at the two-row integer column `[2, 1]`, sorted
ascending to `[1, 2]`. -/
theorem sort_data_spec_witness :
    (true = true →
      List.Chain'
        (fun a b => ∀ x y : Val, a = some x → b = some y → x.key ≤ y.key)
        ((⟨["a"], [[some (Val.vInt 1)], [some (Val.vInt 2)]]⟩ : Dataset).rows.map
          (fun r => r.getD ((load_csv ["a"] [["2"], ["1"]]).cols.findIdx (· == "a")) none))) ∧
    (∀ p q : Nat, p < q →
      q < (⟨["a"], [[some (Val.vInt 1)], [some (Val.vInt 2)]]⟩ : Dataset).rows.length →
      ((⟨["a"], [[some (Val.vInt 1)], [some (Val.vInt 2)]]⟩ : Dataset).rows.getD p []).getD
        ((load_csv ["a"] [["2"], ["1"]]).cols.findIdx (· == "a")) none = none →
      ((⟨["a"], [[some (Val.vInt 1)], [some (Val.vInt 2)]]⟩ : Dataset).rows.getD q []).getD
        ((load_csv ["a"] [["2"], ["1"]]).cols.findIdx (· == "a")) none = none) ∧
    (∀ a b : Int, (Val.vInt a).key ≤ (Val.vInt b).key ↔ a ≤ b) ∧
    (∀ p q : ℚ, (Val.vFloat p).key ≤ (Val.vFloat q).key ↔ p ≤ q) :=
  sort_data_spec (load_csv ["a"] [["2"], ["1"]]) "a" true
    ⟨["a"], [[some (Val.vInt 1)], [some (Val.vInt 2)]]⟩ (by decide)

/-! ### Missing-value handling -/

theorem nullCount_zero_all_some (d : Dataset) (h : nullCount d = 0) :
    ∀ r ∈ d.rows, ∀ c ∈ r, c.isSome = true := by
  intro r hr c hc
  have hz : (r.filter (fun c => c.isNone)).length = 0 := by
    have := List.sum_eq_zero_iff.mp h
    exact this _ (List.mem_map.mpr ⟨r, hr, rfl⟩)
  by_contra hne
  have hn : c.isNone = true := by
    cases c with
    | none => rfl
    | some v => simp at hne
  have : c ∈ r.filter (fun c => c.isNone) := List.mem_filter.mpr ⟨hc, hn⟩
  rw [List.length_eq_zero.mp hz] at this
  exact absurd this (List.not_mem_nil c)

theorem map_eq_self_of {α : Type} (g : α → α) :
    ∀ l : List α, (∀ a ∈ l, g a = a) → l.map g = l := by
  intro l
  induction l with
  | nil => intro _; rfl
  | cons a as ih =>
    intro h
    simp only [List.map_cons]
    rw [h a (List.mem_cons_self a as), ih (fun b hb => h b (List.mem_cons_of_mem a hb))]

theorem fill_missing_snd (d : Dataset) (method : String) (value : Option Val) :
    (fill_missing d method value).2 = true := by
  unfold fill_missing
  split
  · rfl
  · split
    · rfl
    · split
      · rfl
      · rfl

/-- C6: for every Dataset, the missing-value stage in `'drop'` mode keeps
exactly the rows with no missing cell (so it removes exactly the rows
containing at least one null, in any column); in `'fill'` mode it stores
the replacement literal (default the integer `0`) in every missing cell
of every column, as-is, leaving every other cell untouched; with zero
missing cells it is a no-op for every method; and it is a total function
whose Python return value is `True` on every path (it never fails). -/
theorem fill_missing_spec (d : Dataset) (value : Option Val) (method : String) :
    (fill_missing d "drop" value).1.rows = d.rows.filter (fun r => r.all (fun c => c.isSome)) ∧
    (fill_missing d "fill" value).1.rows =
      d.rows.map (fun r => r.map (fun c => some (c.getD (value.getD (Val.vInt 0))))) ∧
    (nullCount d = 0 → fill_missing d method value = (d, true)) ∧
    (fill_missing d method value).2 = true := by
  refine ⟨?_, ?_, ?_, fill_missing_snd d method value⟩
  · by_cases h0 : nullCount d = 0
    · unfold fill_missing
      rw [if_pos h0]
      exact (List.filter_eq_self.mpr
        (fun r hr => List.all_eq_true.mpr (nullCount_zero_all_some d h0 r hr))).symm
    · unfold fill_missing
      rw [if_neg h0, if_pos rfl]
  · by_cases h0 : nullCount d = 0
    · unfold fill_missing
      rw [if_pos h0]
      refine (map_eq_self_of _ _ (fun r hr => ?_)).symm
      refine map_eq_self_of _ r (fun c hc => ?_)
      have := nullCount_zero_all_some d h0 r hr c hc
      cases c with
      | none => simp at this
      | some v => rfl
    · unfold fill_missing
      rw [if_neg h0, if_neg (by decide), if_pos rfl]
  · intro h0
    unfold fill_missing
    rw [if_pos h0]

/-- C10: calling the missing-value handler on a Dataset that does contain
missing cells with a method other than `'drop'` and `'fill'` falls
through both branches: it returns `True` (reports success) and leaves the
Dataset completely unchanged. -/
theorem fill_missing_unknown_method (d : Dataset) (method : String) (value : Option Val)
    (hd : method ≠ "drop") (hf : method ≠ "fill") (hn : nullCount d ≠ 0) :
    fill_missing d method value = (d, true) := by
  unfold fill_missing
  rw [if_neg hn, if_neg hd, if_neg hf]

/-- Witness for C10: a one-column table `["x", missing]` under method
`"interpolate"` is returned unchanged with success. -/
theorem fill_missing_unknown_method_witness :
    fill_missing (load_csv ["a"] [["x"], [""]]) "interpolate" none =
      (load_csv ["a"] [["x"], [""]], true) :=
  fill_missing_unknown_method (load_csv ["a"] [["x"], [""]]) "interpolate" none
    (by decide) (by decide) (by decide)

/-- Witness for C6 at a concrete table with no missing cells: the no-op
conjunct applies with its hypothesis discharged, and both rewrite
conjuncts evaluate. -/
theorem fill_missing_spec_witness :
    (fill_missing (load_csv ["a"] [["x"]]) "drop" none).1.rows =
      (load_csv ["a"] [["x"]]).rows.filter (fun r => r.all (fun c => c.isSome)) ∧
    fill_missing (load_csv ["a"] [["x"]]) "other" none = (load_csv ["a"] [["x"]], true) := by
  refine ⟨(fill_missing_spec (load_csv ["a"] [["x"]]) none "other").1, ?_⟩
  exact (fill_missing_spec (load_csv ["a"] [["x"]]) none "other").2.2.1 (by decide)

/-- C8: filtering (with a successfully evaluated expression, carried as
its row predicate) never increases the row count, and the remaining count
plus the removed count the stage logs equals the initial count. -/
theorem filter_rows_counts (d : Dataset) (p : Row → Bool) :
    (filter_rows d p).rows.length ≤ d.rows.length ∧
    (filter_rows d p).rows.length + filteredRowCount d p = d.rows.length := by
  refine ⟨List.length_filter_le _ _, ?_⟩
  exact Nat.add_sub_cancel' (List.length_filter_le _ _)

/-! ### Invariants across the pipeline -/

theorem select_columns_ok_shape (d : Dataset) (s : String) (d' : Dataset)
    (h : select_columns d s = .ok d') :
    d'.cols = parseColList s ∧
    d'.rows = d.rows.map
      (fun r => (parseColList s).map (fun c => r.getD (d.cols.findIdx (· == c)) none)) := by
  unfold select_columns at h
  dsimp only at h
  split at h
  · injection h with h1
    subst h1
    exact ⟨rfl, rfl⟩
  · exact Except.noConfusion h

theorem fill_missing_shape (d : Dataset) (m : String) (v : Option Val) :
    (fill_missing d m v).1.cols = d.cols ∧
    ∀ r ∈ (fill_missing d m v).1.rows, ∃ r0 ∈ d.rows, r.length = r0.length := by
  unfold fill_missing
  split
  · exact ⟨rfl, fun r hr => ⟨r, hr, rfl⟩⟩
  · split
    · exact ⟨rfl, fun r hr => ⟨r, List.mem_of_mem_filter hr, rfl⟩⟩
    · split
      · refine ⟨rfl, fun r hr => ?_⟩
        obtain ⟨r0, hr0, rfl⟩ := List.mem_map.mp hr
        exact ⟨r0, hr0, List.length_map _ _⟩
      · exact ⟨rfl, fun r hr => ⟨r, hr, rfl⟩⟩

/-- The Datasets this pipeline can hold: one produced by `load_csv` (from
a file whose header names are distinct — pandas' mangling of duplicate
headers is outside the model) and transformed by any sequence of
successful stage applications, where each column-selection request list
is free of repeated names (`select_columns_duplicate_columns` below shows
why that side condition is needed). -/
inductive Produced : Dataset → Prop where
  | load (header : List String) (grid : List (List String)) (hnd : header.Nodup) :
      Produced (load_csv header grid)
  | select (d : Dataset) (s : String) (d' : Dataset) (hp : Produced d)
      (hnd : (parseColList s).Nodup) (hs : select_columns d s = .ok d') : Produced d'
  | filterSt (d : Dataset) (p : Row → Bool) (hp : Produced d) : Produced (filter_rows d p)
  | dedupSt (d : Dataset) (subset : Option (List String)) (d' : Dataset) (hp : Produced d)
      (hs : remove_duplicates d subset = .ok d') : Produced d'
  | fillSt (d : Dataset) (m : String) (v : Option Val) (hp : Produced d) :
      Produced ((fill_missing d m v).1)
  | sortSt (d : Dataset) (c : String) (b : Bool) (d' : Dataset) (hp : Produced d)
      (hs : sort_data d c b = .ok d') : Produced d'

/-- C9 (amended): every Dataset produced by load (duplicate-free header)
and preserved by every subsequent stage has one cell per column in every
row (all columns have equal row count) and unique column names — for the
column-selection stage under the side condition that the requested list
repeats no name. -/
theorem produced_invariants (d : Dataset) (hp : Produced d) :
    d.WF ∧ d.cols.Nodup := by
  induction hp with
  | load header grid hnd =>
    constructor
    · intro r hr
      simp only [load_csv] at hr
      obtain ⟨r0, -, rfl⟩ := List.mem_map.mp hr
      simp [load_csv]
    · exact hnd
  | select d s d' hp hnd hs ih =>
    obtain ⟨hc, hr⟩ := select_columns_ok_shape d s d' hs
    constructor
    · intro r hrr
      rw [hr] at hrr
      obtain ⟨r0, -, rfl⟩ := List.mem_map.mp hrr
      rw [hc]
      exact List.length_map _ _
    · rw [hc]
      exact hnd
  | filterSt d p hp ih =>
    exact ⟨fun r hr => ih.1 r (List.mem_of_mem_filter hr), ih.2⟩
  | dedupSt d subset d' hp hs ih =>
    obtain ⟨hsub, hcols⟩ := remove_duplicates_ok_shape d subset d' hs
    refine ⟨fun r hr => ?_, ?_⟩
    · rw [hcols]
      exact ih.1 r (hsub.mem hr)
    · rw [hcols]
      exact ih.2
  | fillSt d m v hp ih =>
    obtain ⟨hc, hr⟩ := fill_missing_shape d m v
    constructor
    · intro r hrr
      obtain ⟨r0, hr0, hlen⟩ := hr r hrr
      rw [hc, hlen]
      exact ih.1 r0 hr0
    · rw [hc]
      exact ih.2
  | sortSt d c b d' hp hs ih =>
    obtain ⟨hcols, hrows⟩ := sort_data_ok d c b d' hs
    constructor
    · intro r hr
      rw [hrows] at hr
      have hm := (List.perm_insertionSort (rowLe (d.cols.findIdx (· == c)) b) d.rows).mem_iff.mp hr
      rw [hcols]
      exact ih.1 r hm
    · rw [hcols]
      exact ih.2

/-- Witness for C9's amended invariant at a freshly loaded table. -/
theorem produced_invariants_witness :
    (load_csv ["a", "b"] [["1", "x"]]).WF ∧ (load_csv ["a", "b"] [["1", "x"]]).cols.Nodup :=
  produced_invariants _ (Produced.load ["a", "b"] [["1", "x"]] (by decide))

/-- Counterexample for C9 as stated: selecting `"a,a"` (a caller-supplied
request that repeats a name) succeeds and yields a Dataset whose column
names `["a", "a"]` are not unique. -/
theorem select_columns_duplicate_columns :
    select_columns (load_csv ["a", "b"] [["1", "x"]]) "a,a" =
      .ok ⟨["a", "a"], [[some (Val.vInt 1), some (Val.vInt 1)]]⟩ ∧
    ¬ (["a", "a"] : List String).Nodup :=
  ⟨by decide, by decide⟩

/-! ### Driver-level claims -/

/-- C4: when the selection request names absent columns, the stage fails
with `ColumnNotFoundError` carrying every missing name at once (the
deduplicated list of requested names absent from the current columns —
the model of `set(col_list) - set(self.df.columns)`), no modified Dataset
is produced, and the driver exits with status 1 without writing a file. -/
theorem select_columns_missing_aborts (d : Dataset) (columns : String) (args : Args)
    (hc : args.columns = some columns)
    (hm : ((parseColList columns).filter (fun c => !d.cols.contains c)).dedup ≠ []) :
    select_columns d columns =
      .error (.columnNotFound (((parseColList columns).filter (fun c => !d.cols.contains c)).dedup)) ∧
    (∀ d' : Dataset, select_columns d columns ≠ .ok d') ∧
    main args d = { exitCode := 1, written := none } := by
  have herr : select_columns d columns =
      .error (.columnNotFound (((parseColList columns).filter (fun c => !d.cols.contains c)).dedup)) := by
    unfold select_columns
    dsimp only
    rw [if_neg (fun hq => hm (List.isEmpty_iff.mp hq))]
  refine ⟨herr, fun d' hok => by rw [herr] at hok; exact Except.noConfusion hok, ?_⟩
  unfold main
  rw [hc]
  dsimp only
  rw [herr]

/-- Witness for C4, the spec's own scenario: columns `{id, name}`,
request `"id,age"` — the error names `age`, and the pipeline exits 1
with no output file. -/
theorem select_columns_missing_aborts_witness :
    select_columns (load_csv ["id", "name"] [["1", "bob"]]) "id,age" =
      .error (.columnNotFound ["age"]) ∧
    (∀ d' : Dataset, select_columns (load_csv ["id", "name"] [["1", "bob"]]) "id,age" ≠ .ok d') ∧
    main { columns := some "id,age", filt := none, removeDup := false, fillMiss := none,
           fillValue := none, sortBy := none, descending := false, outFmt := "csv" }
        (load_csv ["id", "name"] [["1", "bob"]]) =
      { exitCode := 1, written := none } :=
  select_columns_missing_aborts (load_csv ["id", "name"] [["1", "bob"]]) "id,age"
    { columns := some "id,age", filt := none, removeDup := false, fillMiss := none,
      fillValue := none, sortBy := none, descending := false, outFmt := "csv" }
    rfl (by decide)

/-- C1, evaluated at the failing input (code bug): on a table with
columns `a, b` and the request to sort by the absent column `c`,
`sort_data` does fail with `ColumnNotFoundError` and leaves the table
untouched, but `main` (line 269) discards that return value, so the
remaining stages are not skipped: the unsorted table is saved and the
process exits 0 — against the claimed abort with non-zero status and no
output file. -/
theorem pipeline_continues_after_sort_failure :
    sort_data (load_csv ["a", "b"] [["1", "x"]]) "c" true =
      .error (.columnNotFound ["c"]) ∧
    main { columns := none, filt := none, removeDup := false, fillMiss := none,
           fillValue := none, sortBy := some "c", descending := false, outFmt := "csv" }
        (load_csv ["a", "b"] [["1", "x"]]) =
      { exitCode := 0, written := some (load_csv ["a", "b"] [["1", "x"]]) } :=
  ⟨by decide, by decide⟩

end ProcessCSV
